import Mathlib

/-!
Verification of the datazen-ts parameter-binding pipeline.

This file gives a shallow embedding of the three core components of the
library (the SQL tokenizer in `src/sql/parser.ts`, the parameter compiler in
`src/parameter-compiler.ts`, and the transaction-nesting state machine of
`src/connection.ts`) and proves the specified properties about them.

Strings are modelled as `List Char` (a JS string is a sequence of code
units; the tokenizer only classifies and concatenates characters, so this
correspondence is exact for the properties studied here).
-/

namespace Datazen

/-- The backtick character (Char code 96), written by code to keep the
development ASCII-clean. -/
def backtickChar : Char := Char.ofNat 96

/-- The single-quote character (Char code 39). -/
def sqChar : Char := Char.ofNat 39

/-- `SPECIAL_CHARS` of `src/sql/parser.ts` line 5: the characters that
terminate an `OTHER` run and that the single-character `SPECIAL`
alternative matches. -/
def specialChar (c : Char) : Bool :=
  c = ':' || c = '?' || c = sqChar || c = '"' || c = '[' || c = '-' || c = '/' ||
    c = backtickChar

/-- `[a-zA-Z0-9_]`: the identifier characters of the `NAMED_PARAMETER`
pattern, which coincide with the regex word characters used by the
word-boundary test of `BRACKET_IDENTIFIER`. -/
def isIdentChar (c : Char) : Bool :=
  (('a' ≤ c && c ≤ 'z') || ('A' ≤ c && c ≤ 'Z') || ('0' ≤ c && c ≤ '9') || c = '_')

/-- Classification of a matched token, following the three named groups of
the token regular expression of `src/sql/parser.ts` line 41. -/
inductive FragmentKind
  | namedParameter
  | positionalParameter
  | other
  deriving DecidableEq, Repr

/-- One fragment handed to the visitor: its classification and the exact
text matched. -/
structure Fragment where
  kind : FragmentKind
  text : List Char
  deriving DecidableEq, Repr

/-- Body of an ANSI string literal (pattern `D[^D]*D` after the opening
delimiter, `getAnsiSQLStringLiteralPattern`): everything up to the next
delimiter plus that delimiter, or failure when the literal is
unterminated.  The same shape matches `BACKTICK_IDENTIFIER` and the
body of `BRACKET_IDENTIFIER`. -/
def ansiBody (delim : Char) (l : List Char) : Option (List Char × List Char) :=
  match l.dropWhile (fun c => c ≠ delim) with
  | [] => none
  | c :: cs => some (l.takeWhile (fun c => c ≠ delim) ++ [c], cs)

/-- Body of a MySQL-escaped string literal after the opening delimiter
(`getMySQLStringLiteralPattern`): a backslash consumes the following
character, an unescaped delimiter closes the literal, and a literal that
ends without its closing delimiter (including a trailing backslash) fails
to match. -/
def mysqlBody (delim : Char) : List Char → Option (List Char × List Char)
  | [] => none
  | [c] => if c = delim then some ([c], []) else none
  | c :: d :: ds =>
    if c = delim then some ([c], d :: ds)
    else if c = '\\' then (mysqlBody delim ds).map (fun r => (c :: d :: r.1, r.2))
    else (mysqlBody delim (d :: ds)).map (fun r => (c :: r.1, r.2))

/-- Rest of a block comment after the opening `/*`
(`MULTI_LINE_COMMENT`): everything up to and including the first `*/`,
or failure when the comment is unterminated. -/
def blockBody : List Char → Option (List Char × List Char)
  | [] => none
  | [_] => none
  | c :: d :: ds =>
    if c = '*' && d = '/' then some ([c, d], ds)
    else (blockBody (d :: ds)).map (fun r => (c :: r.1, r.2))

/-- The negative lookbehind of `BRACKET_IDENTIFIER`
(`(?<!\b[Aa][Rr][Rr][Aa][Yy])`), evaluated on the reversed prefix of the
input before the `[`: true when the five preceding characters spell
`ARRAY` case-insensitively and start at a word boundary, in which case
the bracket is NOT scanned as an opaque identifier. -/
def arrayLookbehind : List Char → Bool
  | c5 :: c4 :: c3 :: c2 :: c1 :: rest =>
    c5.toLower = 'y' && c4.toLower = 'a' && c3.toLower = 'r' && c2.toLower = 'r' &&
      c1.toLower = 'a' &&
      (match rest with
       | [] => true
       | c0 :: _ => !(isIdentChar c0))
  | _ => false

/-- String-literal body in the configured quoting dialect
(constructor of `Parser`, line 24: `mySQLStringEscaping` selects between
the MySQL and the ANSI pattern). -/
def stringLitBody (mySQLStringEscaping : Bool) (delim : Char) (l : List Char) :
    Option (List Char × List Char) :=
  if mySQLStringEscaping then mysqlBody delim l else ansiBody delim l

/-- The `other` group of the token regular expression, tried when the
`named` and `positional` alternatives failed at the current position:
string literals, backtick identifiers, bracket identifiers, colon runs,
comments and greedy non-special runs, with the single-character `SPECIAL`
fallback last.  `pre` is the reversed input before the current position
(the regex lookbehinds may look before the match start). -/
def otherToken (mySQLStringEscaping : Bool) (pre : List Char) (c : Char)
    (cs : List Char) : Fragment × List Char :=
  if c = sqChar || c = '"' then
    match stringLitBody mySQLStringEscaping c cs with
    | some (body, rest) => (⟨.other, c :: body⟩, rest)
    | none => (⟨.other, [c]⟩, cs)
  else if c = backtickChar then
    match ansiBody backtickChar cs with
    | some (body, rest) => (⟨.other, c :: body⟩, rest)
    | none => (⟨.other, [c]⟩, cs)
  else if c = '[' then
    if arrayLookbehind pre then (⟨.other, [c]⟩, cs)
    else
      match ansiBody ']' cs with
      | some (body, rest) => (⟨.other, c :: body⟩, rest)
      | none => (⟨.other, [c]⟩, cs)
  else if c = ':' then
    match cs with
    | d :: _ =>
      if d = ':' then
        (⟨.other, c :: cs.takeWhile (fun x => x = ':')⟩, cs.dropWhile (fun x => x = ':'))
      else (⟨.other, [c]⟩, cs)
    | [] => (⟨.other, [c]⟩, cs)
  else if c = '-' then
    match cs with
    | d :: ds =>
      if d = '-' then
        (⟨.other, c :: d :: ds.takeWhile (fun x => x ≠ '\r' && x ≠ '\n')⟩,
         ds.dropWhile (fun x => x ≠ '\r' && x ≠ '\n'))
      else (⟨.other, [c]⟩, cs)
    | [] => (⟨.other, [c]⟩, cs)
  else if c = '/' then
    match cs with
    | d :: ds =>
      if d = '*' then
        match blockBody ds with
        | some (body, rest) => (⟨.other, c :: d :: body⟩, rest)
        | none => (⟨.other, [c]⟩, cs)
      else (⟨.other, [c]⟩, cs)
    | [] => (⟨.other, [c]⟩, cs)
  else if specialChar c then (⟨.other, [c]⟩, cs)
  else
    ((⟨.other, (c :: cs).takeWhile (fun x => !(specialChar x))⟩ : Fragment),
     (c :: cs).dropWhile (fun x => !(specialChar x)))

/-- `[a-zA-Z0-9_]` test on the first character of a list (the one-character
lookahead of the `NAMED_PARAMETER` pattern). -/
def headIsIdent : List Char → Bool
  | d :: _ => isIdentChar d
  | [] => false

/-- "The adjacent character is not a question mark": the zero-width
lookbehind and lookahead of `POSITIONAL_PARAMETER` (`(?<!\?)\?(?!\?)`). -/
def headNotQuestion : List Char → Bool
  | d :: _ => d ≠ '?'
  | [] => true

/-- One sticky match of the token regular expression of
`src/sql/parser.ts` line 41 at the current position: the ordered
alternation `named | positional | other`.  Returns the classified
fragment and the remaining input; `none` corresponds to `match === null`
in `Parser.parse`. -/
def nextToken (mySQLStringEscaping : Bool) (pre : List Char) :
    List Char → Option (Fragment × List Char)
  | [] => none
  | c :: cs =>
    if c = ':' && headIsIdent cs then
      some (⟨.namedParameter, c :: cs.takeWhile isIdentChar⟩, cs.dropWhile isIdentChar)
    else if c = '?' && headNotQuestion pre && headNotQuestion cs then
      some (⟨.positionalParameter, [c]⟩, cs)
    else some (otherToken mySQLStringEscaping pre c cs)

namespace Parser

/-- The scan loop of `Parser.parse` (lines 49-74), fuelled by the input
length: repeatedly match the token expression at the current offset,
emit the fragment and advance by its length.  A position where no rule
matches raises `RegularExpressionException` carrying the offset,
modelled as `.error offset`.  `pre` is the reversed consumed input. -/
def parseAux (mySQLStringEscaping : Bool) :
    Nat → List Char → List Char → Nat → Except Nat (List Fragment)
  | _, _, [], _ => .ok []
  | 0, _, _ :: _, ofs => .error ofs
  | fuel + 1, pre, c :: cs, ofs =>
    match nextToken mySQLStringEscaping pre (c :: cs) with
    | none => .error ofs
    | some (f, r) =>
      match parseAux mySQLStringEscaping fuel (f.text.reverse ++ pre) r (ofs + f.text.length) with
      | .error e => .error e
      | .ok fs => .ok (f :: fs)

/-- `Parser.parse`: tokenize a whole SQL string into its fragment
sequence (the visitor calls, in order). -/
def parse (mySQLStringEscaping : Bool) (sql : List Char) : Except Nat (List Fragment) :=
  parseAux mySQLStringEscaping sql.length [] sql 0

end Parser

/-!  ## Parameter compiler (`src/parameter-compiler.ts`)  -/

/-- A caller-supplied parameter value, as discriminated by
`Array.isArray`: either a scalar (opaque to the compiler) or an ordered
sequence. -/
inductive JSValue
  | scalar (id : Nat)
  | arr (elems : List JSValue)

/-- A binding-type tag: the `ParameterType` enum members
(cf. `Connection.isParameterType`), the `ArrayParameterType` enum members
(`src/array-parameter-type.ts`), or an opaque custom type whose name
differs from every enum backing value (custom `Type` instances and type
names are never interpreted by the compiler beyond scalar-vs-array
classification). -/
inductive BindTag
  | pNull
  | pInteger
  | pString
  | pLargeObject
  | pBoolean
  | pBinary
  | pAscii
  | aInteger
  | aString
  | aAscii
  | aBinary
  | custom (name : List Char)
  deriving DecidableEq, Repr

/-- `ParameterCompiler.isArrayParameterType`: exactly the four
`ArrayParameterType` enum values. -/
def isArrayParameterType : BindTag → Bool
  | .aInteger => true
  | .aString => true
  | .aAscii => true
  | .aBinary => true
  | _ => false

/-- `ArrayParameterType.toElementParameterType`
(`src/array-parameter-type.ts`): the element scalar type designated by an
array tag.  Only ever applied under an `isArrayParameterType` guard. -/
def toElementParameterType : BindTag → BindTag
  | .aInteger => .pInteger
  | .aString => .pString
  | .aAscii => .pAscii
  | .aBinary => .pBinary
  | t => t

/-- `QueryParameters`: either an ordered sequence (positional style) or a
name-to-value record (named style), as discriminated by
`Array.isArray`. -/
inductive QueryParameters
  | positional (values : List JSValue)
  | named (entries : List (List Char × JSValue))

/-- `QueryParameterTypes`: type tags in the same two shapes. -/
inductive QueryParameterTypes
  | positional (types : List BindTag)
  | named (entries : List (List Char × BindTag))
  deriving DecidableEq, Repr

/-- JS record lookup (`Object.hasOwn` plus index): first matching key
(keys are unique in a JS object; insertions below prepend, so the first
match is the most recent write). -/
def recordLookup (entries : List (List Char × α)) (key : List Char) : Option α :=
  (entries.find? (fun kv => kv.1 == key)).map (fun kv => kv.2)

/-- The error taxonomy raised by `ParameterCompiler.compile`. -/
inductive CompileError
  | regularExpression (offset : Nat)
  | mixedParameterStyle
  | missingNamedParameter (name : List Char)
  | missingPositionalParameter (index : Nat)
  | invalidParameter
  deriving DecidableEq, Repr

/-- `ParameterBindingStyle` of `src/driver.ts`: the target placeholder
convention of the active driver. -/
inductive ParameterBindingStyle
  | positional
  | named
  deriving DecidableEq, Repr

/-- The mutable `CompileContext` of `src/parameter-compiler.ts` lines
20-30. -/
structure CompileContext where
  sqlParts : List (List Char)
  boundValues : List JSValue
  boundTypes : List BindTag
  namedBoundValues : List (List Char × JSValue)
  namedBoundTypes : List (List Char × BindTag)
  positionalIndex : Nat
  bindCounter : Nat
  usedNamedParameter : Bool
  usedPositionalParameter : Bool

/-- The fresh context built at the top of `compile` (lines 41-51). -/
def compileInitContext : CompileContext :=
  { sqlParts := [], boundValues := [], boundTypes := [], namedBoundValues := [],
    namedBoundTypes := [], positionalIndex := 0, bindCounter := 0,
    usedNamedParameter := false, usedPositionalParameter := false }

/-- The result shape of a compilation (`CompiledQuery` of
`src/types.ts`): ordered collections for the positional binding style,
keyed maps for the named style. -/
inductive CompiledQuery
  | positional (sql : List Char) (parameters : List JSValue) (types : List BindTag)
  | named (sql : List Char) (parameters : List (List Char × JSValue))
      (types : List (List Char × BindTag))

namespace ParameterCompiler

/-- `ParameterCompiler.readNamedValue` (lines 162-177): named lookups on
an array container are a style mismatch; otherwise try the bare name and
then the colon-prefixed variant. -/
def readNamedValue (name : List Char) (params : QueryParameters) :
    Except CompileError JSValue :=
  match params with
  | .positional _ => .error .mixedParameterStyle
  | .named entries =>
    match recordLookup entries name with
    | some v => .ok v
    | none =>
      match recordLookup entries (':' :: name) with
      | some v => .ok v
      | none => .error (.missingNamedParameter name)

/-- `ParameterCompiler.readNamedType` (lines 179-194). -/
def readNamedType (name : List Char) (types : QueryParameterTypes) : Option BindTag :=
  match types with
  | .positional _ => none
  | .named entries =>
    match recordLookup entries name with
    | some t => some t
    | none => recordLookup entries (':' :: name)

/-- `ParameterCompiler.readPositionalValue` (lines 196-206). -/
def readPositionalValue (index : Nat) (params : QueryParameters) :
    Except CompileError JSValue :=
  match params with
  | .named _ => .error .mixedParameterStyle
  | .positional values =>
    match values.get? index with
    | some v => .ok v
    | none => .error (.missingPositionalParameter index)

/-- `ParameterCompiler.readPositionalType` (lines 208-221). -/
def readPositionalType (index : Nat) (types : QueryParameterTypes) : Option BindTag :=
  match types with
  | .named _ => none
  | .positional list => list.get? index

/-- The synthetic placeholder name `p<n>`. -/
def pKey (n : Nat) : List Char := 'p' :: Nat.toDigits 10 n

/-- `ParameterCompiler.appendScalarBoundValue` (lines 143-160): emit one
placeholder in the target binding style and record the value/type pair;
returns the emitted placeholder text and the updated context. -/
def appendScalarBoundValue (value : JSValue) (type : BindTag)
    (bindingStyle : ParameterBindingStyle) (ctx : CompileContext) :
    List Char × CompileContext :=
  match bindingStyle with
  | .named =>
    ('@' :: pKey (ctx.bindCounter + 1),
     { ctx with
        bindCounter := ctx.bindCounter + 1,
        namedBoundValues := (pKey (ctx.bindCounter + 1), value) :: ctx.namedBoundValues,
        namedBoundTypes := (pKey (ctx.bindCounter + 1), type) :: ctx.namedBoundTypes })
  | .positional =>
    (['?'],
     { ctx with
        boundValues := ctx.boundValues ++ [value],
        boundTypes := ctx.boundTypes ++ [type] })

/-- The `value.map((element) => this.appendScalarBoundValue(...))` loop of
`appendBoundValue` (lines 132-134): left-to-right, threading the
context. -/
def appendScalarList (type : BindTag) (bindingStyle : ParameterBindingStyle) :
    List JSValue → CompileContext → List (List Char) × CompileContext
  | [], ctx => ([], ctx)
  | e :: es, ctx =>
    let r := appendScalarBoundValue e type bindingStyle ctx
    let rest := appendScalarList type bindingStyle es r.2
    (r.1 :: rest.1, rest.2)

/-- `Array.prototype.join(sep)`. -/
def joinSep (sep : List Char) : List (List Char) → List Char
  | [] => []
  | [x] => x
  | x :: xs => x ++ sep ++ joinSep sep xs

/-- The literal `NULL` pushed for empty array parameters. -/
def nullText : List Char := ['N', 'U', 'L', 'L']

/-- `", "`. -/
def commaSpace : List Char := [',', ' ']

/-- `ParameterCompiler.appendBoundValue` (lines 113-141): scalars emit one
placeholder; sequences require an array binding tag, compile to `NULL`
when empty and to per-element placeholders joined by `", "` otherwise. -/
def appendBoundValue (value : JSValue) (type? : Option BindTag)
    (bindingStyle : ParameterBindingStyle) (ctx : CompileContext) :
    Except CompileError CompileContext :=
  let parameterType := type?.getD .pString
  match value with
  | .arr elems =>
    if isArrayParameterType parameterType = false then .error .invalidParameter
    else if elems.isEmpty then .ok { ctx with sqlParts := ctx.sqlParts ++ [nullText] }
    else
      let r := appendScalarList (toElementParameterType parameterType) bindingStyle elems ctx
      .ok { r.2 with sqlParts := r.2.sqlParts ++ [joinSep commaSpace r.1] }
  | .scalar _ =>
    let r := appendScalarBoundValue value parameterType bindingStyle ctx
    .ok { r.2 with sqlParts := r.2.sqlParts ++ [r.1] }

/-- The visitor built in `compileSQL` (lines 88-108), applied to one
fragment: `Other` text is copied verbatim; a parameter marker flips the
corresponding style flag, resolves its value and type and appends the
bound value (the positional counter advances after a successful
append). -/
def acceptFragment (params : QueryParameters) (types : QueryParameterTypes)
    (bindingStyle : ParameterBindingStyle) (ctx : CompileContext) (f : Fragment) :
    Except CompileError CompileContext :=
  match f.kind with
  | .other => .ok { ctx with sqlParts := ctx.sqlParts ++ [f.text] }
  | .namedParameter =>
    let name := f.text.drop 1
    let ctx1 := { ctx with usedNamedParameter := true }
    match readNamedValue name params with
    | .error e => .error e
    | .ok value => appendBoundValue value (readNamedType name types) bindingStyle ctx1
  | .positionalParameter =>
    let ctx1 := { ctx with usedPositionalParameter := true }
    match readPositionalValue ctx1.positionalIndex params with
    | .error e => .error e
    | .ok value =>
      match appendBoundValue value (readPositionalType ctx1.positionalIndex types)
          bindingStyle ctx1 with
      | .error e => .error e
      | .ok ctx2 => .ok { ctx2 with positionalIndex := ctx2.positionalIndex + 1 }

/-- Folding the visitor over the fragment stream, aborting on the first
raised error (a JS exception unwinds `parser.parse`). -/
def compileFrags (params : QueryParameters) (types : QueryParameterTypes)
    (bindingStyle : ParameterBindingStyle) :
    List Fragment → CompileContext → Except CompileError CompileContext
  | [], ctx => .ok ctx
  | f :: fs, ctx =>
    match acceptFragment params types bindingStyle ctx f with
    | .error e => .error e
    | .ok ctx' => compileFrags params types bindingStyle fs ctx'

/-- `ParameterCompiler.compile` (lines 35-72): drive the tokenizer
(constructed with `mySQLStringEscaping = true`, line 33) over the SQL,
fold the visitor, apply the post-scan mixed-style check, and assemble
the `CompiledQuery` in the target binding style. -/
def compile (sql : List Char) (params : QueryParameters)
    (types : QueryParameterTypes) (bindingStyle : ParameterBindingStyle) :
    Except CompileError CompiledQuery :=
  match Parser.parse true sql with
  | .error ofs => .error (.regularExpression ofs)
  | .ok frags =>
    match compileFrags params types bindingStyle frags compileInitContext with
    | .error e => .error e
    | .ok ctx =>
      if ctx.usedNamedParameter && ctx.usedPositionalParameter then
        .error .mixedParameterStyle
      else
        match bindingStyle with
        | .named => .ok (.named (joinSep [] ctx.sqlParts) ctx.namedBoundValues ctx.namedBoundTypes)
        | .positional => .ok (.positional (joinSep [] ctx.sqlParts) ctx.boundValues ctx.boundTypes)

/-- Expected map contents after binding elements `es` starting above
counter value `c`: each element is prepended under the next synthetic
key, so the entry for the i-th element (key `p(c+i+1)`) ends up in front
of the previous ones. -/
def namedEntries (c : Nat) : List α → List (List Char × α) → List (List Char × α)
  | [], old => old
  | e :: es, old => namedEntries (c + 1) es ((pKey (c + 1), e) :: old)

/-- Expected placeholder texts `@p(c+1), ..., @p(c+n)`. -/
def atPlaceholders (c : Nat) : Nat → List (List Char)
  | 0 => []
  | n + 1 => ('@' :: pKey (c + 1)) :: atPlaceholders (c + 1) n

end ParameterCompiler

/-!  ## Transaction nesting (`src/connection.ts`)

The transaction operations are modelled as explicit state transitions.
The collaborator driver connection is modelled by which optional
savepoint operations it implements and by whether each physical call
succeeds; a failing call raises a driver exception, which
`convertException` passes through as a (non-connection) `DbalException`
without touching the state.  The connection is assumed established
(`driverConnection !== null`), which is the case on every path that can
reach these operations with a nesting level above zero.  -/

/-- The transaction-relevant state of a `Connection`:
`transactionNestingLevel` and `rollbackOnly` (lines 43-44), plus the
`autoCommit` flag consulted by the restart logic. -/
structure TransactionState where
  transactionNestingLevel : Nat
  rollbackOnly : Bool
  autoCommit : Bool
  deriving DecidableEq, Repr

/-- The collaborator `DriverConnection`: which optional savepoint
operations exist, and whether each physical call succeeds when
issued. -/
structure DriverSpec where
  beginOk : Bool
  commitOk : Bool
  rollBackOk : Bool
  hasCreateSavepoint : Bool
  createSavepointOk : Bool
  hasReleaseSavepoint : Bool
  releaseSavepointOk : Bool
  hasRollbackSavepoint : Bool
  rollbackSavepointOk : Bool
  deriving DecidableEq, Repr

/-- Errors surfaced by the transaction operations. -/
inductive TxError
  | noActiveTransaction
  | rollbackOnly
  | nestedTransactionsNotSupported
  | driverFailure
  deriving DecidableEq, Repr

namespace Connection

/-- `Connection.beginTransaction` (lines 249-271): at level 0 a physical
begin, otherwise a savepoint `DATAZEN_<n+1>` (requiring
`createSavepoint`); the level is bumped only after the physical call
returns. -/
def beginTransaction (d : DriverSpec) (s : TransactionState) :
    TransactionState × Option TxError :=
  if s.transactionNestingLevel = 0 then
    if d.beginOk then ({ s with transactionNestingLevel := 1 }, none)
    else (s, some .driverFailure)
  else if d.hasCreateSavepoint = false then (s, some .nestedTransactionsNotSupported)
  else if d.createSavepointOk then
    ({ s with transactionNestingLevel := s.transactionNestingLevel + 1 }, none)
  else (s, some .driverFailure)

/-- `Connection.updateTransactionStateAfterCommit` (lines 413-424):
decrement the level if nonzero; when auto-commit is disabled and the
level reached 0, clear rollback-only and immediately re-begin. -/
def updateTransactionStateAfterCommit (d : DriverSpec) (s : TransactionState) :
    TransactionState × Option TxError :=
  let s1 :=
    if s.transactionNestingLevel ≠ 0 then
      { s with transactionNestingLevel := s.transactionNestingLevel - 1 }
    else s
  if s1.autoCommit || s1.transactionNestingLevel ≠ 0 then (s1, none)
  else beginTransaction d { s1 with rollbackOnly := false }

/-- `Connection.commit` (lines 273-301): guard checks first
(`NoActiveTransactionException` at level 0, `RollbackOnlyException` when
flagged), then the physical commit (level 1) or savepoint release
(level > 1) inside a `try` whose `finally` always runs
`updateTransactionStateAfterCommit`; an error thrown by the `finally`
supersedes the physical error. -/
def commit (d : DriverSpec) (s : TransactionState) :
    TransactionState × Option TxError :=
  if s.transactionNestingLevel = 0 then (s, some .noActiveTransaction)
  else if s.rollbackOnly then (s, some .rollbackOnly)
  else
    let physical : Option TxError :=
      if s.transactionNestingLevel = 1 then
        if d.commitOk then none else some .driverFailure
      else if d.hasReleaseSavepoint = false then some .nestedTransactionsNotSupported
      else if d.releaseSavepointOk then none else some .driverFailure
    let r := updateTransactionStateAfterCommit d s
    (r.1, match r.2 with
          | some e => some e
          | none => physical)

/-- `Connection.rollBack` (lines 303-337): at level 1 the level is reset
to 0 before the physical rollback, whose `finally` clears rollback-only
and re-begins when auto-commit is disabled; at level > 1 a savepoint
rollback (requiring `rollbackSavepoint`) decrements the level only
after the physical call returns. -/
def rollBack (d : DriverSpec) (s : TransactionState) :
    TransactionState × Option TxError :=
  if s.transactionNestingLevel = 0 then (s, some .noActiveTransaction)
  else if s.transactionNestingLevel = 1 then
    let s1 := { s with transactionNestingLevel := 0 }
    let physical : Option TxError := if d.rollBackOk then none else some .driverFailure
    let s2 := { s1 with rollbackOnly := false }
    let r := if s2.autoCommit then (s2, (none : Option TxError)) else beginTransaction d s2
    (r.1, match r.2 with
          | some e => some e
          | none => physical)
  else if d.hasRollbackSavepoint = false then (s, some .nestedTransactionsNotSupported)
  else if d.rollbackSavepointOk then
    ({ s with transactionNestingLevel := s.transactionNestingLevel - 1 }, none)
  else (s, some .driverFailure)

/-- `Connection.setRollbackOnly` (lines 339-345). -/
def setRollbackOnly (s : TransactionState) : TransactionState × Option TxError :=
  if s.transactionNestingLevel = 0 then (s, some .noActiveTransaction)
  else ({ s with rollbackOnly := true }, none)

/-- `Connection.isRollbackOnly` (lines 347-353): a read-only query that
throws `NoActiveTransactionException` outside a transaction. -/
def isRollbackOnly (s : TransactionState) : Except TxError Bool :=
  if s.transactionNestingLevel = 0 then .error .noActiveTransaction
  else .ok s.rollbackOnly

end Connection

/-!  ## Tokenizer lemmas  -/

theorem ansiBody_spec {delim : Char} {l t r : List Char}
    (h : ansiBody delim l = some (t, r)) : t ++ r = l ∧ t ≠ [] := by
  unfold ansiBody at h
  split at h
  · simp at h
  case _ c cs heq =>
    simp only [Option.some.injEq, Prod.mk.injEq] at h
    obtain ⟨rfl, rfl⟩ := h
    refine ⟨?_, by simp⟩
    have hl := List.takeWhile_append_dropWhile (p := fun c => decide (c ≠ delim)) (l := l)
    rw [heq] at hl
    rw [List.append_assoc]
    simpa using hl

theorem mysqlBody_spec (delim : Char) (l t r : List Char)
    (h : mysqlBody delim l = some (t, r)) : t ++ r = l ∧ t ≠ [] := by
  generalize hn : l.length = n
  induction n using Nat.strong_induction_on generalizing l t r with
  | _ n ih =>
    match l with
    | [] => simp [mysqlBody] at h
    | [c] =>
      rw [mysqlBody] at h
      split at h
      · simp only [Option.some.injEq, Prod.mk.injEq] at h
        obtain ⟨rfl, rfl⟩ := h
        simp
      · simp at h
    | c :: d :: ds =>
      rw [mysqlBody] at h
      by_cases h1 : c = delim
      · simp only [h1, if_pos rfl, Option.some.injEq, Prod.mk.injEq] at h
        obtain ⟨rfl, rfl⟩ := h
        simp [h1]
      · rw [if_neg h1] at h
        by_cases h2 : c = '\\'
        · rw [if_pos h2] at h
          simp only [Option.map_eq_some'] at h
          obtain ⟨⟨t', r'⟩, hrec, h⟩ := h
          simp only [Prod.mk.injEq] at h
          obtain ⟨rfl, rfl⟩ := h
          have := ih ds.length (by subst hn; simp; omega) ds t' r' hrec rfl
          simp [← this.1]
        · rw [if_neg h2] at h
          simp only [Option.map_eq_some'] at h
          obtain ⟨⟨t', r'⟩, hrec, h⟩ := h
          simp only [Prod.mk.injEq] at h
          obtain ⟨rfl, rfl⟩ := h
          have := ih (d :: ds).length (by subst hn; simp) (d :: ds) t' r' hrec rfl
          simp [← this.1]

theorem blockBody_spec (l t r : List Char)
    (h : blockBody l = some (t, r)) : t ++ r = l ∧ t ≠ [] := by
  generalize hn : l.length = n
  induction n using Nat.strong_induction_on generalizing l t r with
  | _ n ih =>
    match l with
    | [] => simp [blockBody] at h
    | [c] => simp [blockBody] at h
    | c :: d :: ds =>
      rw [blockBody] at h
      split at h
      · simp only [Option.some.injEq, Prod.mk.injEq] at h
        obtain ⟨rfl, rfl⟩ := h
        simp
      · simp only [Option.map_eq_some'] at h
        obtain ⟨⟨t', r'⟩, hrec, h⟩ := h
        simp only [Prod.mk.injEq] at h
        obtain ⟨rfl, rfl⟩ := h
        have := ih (d :: ds).length (by subst hn; simp) (d :: ds) t' r' hrec rfl
        simp [← this.1]

theorem stringLitBody_spec {mysql : Bool} {delim : Char} {l t r : List Char}
    (h : stringLitBody mysql delim l = some (t, r)) : t ++ r = l ∧ t ≠ [] := by
  unfold stringLitBody at h
  by_cases hm : mysql
  · rw [if_pos hm] at h
    exact mysqlBody_spec delim l t r h
  · rw [if_neg hm] at h
    exact ansiBody_spec h

theorem otherToken_spec (mysql : Bool) (pre : List Char) (c : Char) (cs : List Char) :
    (otherToken mysql pre c cs).1.text ++ (otherToken mysql pre c cs).2 = c :: cs ∧
      (otherToken mysql pre c cs).1.text ≠ [] := by
  unfold otherToken
  split
  · split
    case _ body rest heq =>
      have := stringLitBody_spec heq
      simp [← this.1]
    case _ => simp
  split
  · split
    case _ body rest heq =>
      have := ansiBody_spec heq
      simp [← this.1]
    case _ => simp
  split
  · split
    · simp
    split
    case _ body rest heq =>
      have := ansiBody_spec heq
      simp [← this.1]
    case _ => simp
  split
  · split
    case _ d ds =>
      split
      · refine ⟨?_, by simp⟩
        have := List.takeWhile_append_dropWhile (p := fun x => decide (x = ':')) (l := d :: ds)
        simpa using congrArg (List.cons c) this
      · simp
    case _ => simp
  split
  · split
    case _ d ds =>
      split
      · refine ⟨?_, by simp⟩
        have := List.takeWhile_append_dropWhile
          (p := fun x => decide (x ≠ '\r') && decide (x ≠ '\n')) (l := ds)
        simpa using congrArg (fun l => c :: d :: l) this
      · simp
    case _ => simp
  split
  · split
    case _ d ds =>
      split
      · split
        case _ body rest heq =>
          have := blockBody_spec ds body rest heq
          simp [← this.1]
        case _ => simp
      · simp
    case _ => simp
  split
  · simp
  case isFalse hspec =>
    refine ⟨?_, ?_⟩
    · have := List.takeWhile_append_dropWhile (p := fun x => !specialChar x) (l := c :: cs)
      simpa using this
    · have hc : specialChar c = false := by
        simpa using hspec
      simp [List.takeWhile_cons, hc]

theorem nextToken_spec {mysql : Bool} {pre l : List Char} {f : Fragment} {r : List Char}
    (h : nextToken mysql pre l = some (f, r)) : f.text ++ r = l ∧ f.text ≠ [] := by
  match l with
  | [] => simp [nextToken] at h
  | c :: cs =>
    rw [nextToken] at h
    split at h
    · simp only [Option.some.injEq, Prod.mk.injEq] at h
      obtain ⟨rfl, rfl⟩ := h
      refine ⟨?_, by simp⟩
      have := List.takeWhile_append_dropWhile (p := isIdentChar) (l := cs)
      simpa using congrArg (List.cons c) this
    split at h
    · simp only [Option.some.injEq, Prod.mk.injEq] at h
      obtain ⟨rfl, rfl⟩ := h
      simp
    · simp only [Option.some.injEq] at h
      have := otherToken_spec mysql pre c cs
      rw [h] at this
      exact this

theorem nextToken_isSome (mysql : Bool) (pre : List Char) (c : Char) (cs : List Char) :
    ∃ fr, nextToken mysql pre (c :: cs) = some fr := by
  rw [nextToken]
  split
  · exact ⟨_, rfl⟩
  split
  · exact ⟨_, rfl⟩
  · exact ⟨_, rfl⟩

theorem parseAux_ok (mysql : Bool) :
    ∀ fuel pre l ofs, l.length ≤ fuel →
      ∃ fs, Parser.parseAux mysql fuel pre l ofs = .ok fs := by
  intro fuel
  induction fuel with
  | zero =>
    intro pre l ofs hlen
    match l with
    | [] => exact ⟨[], rfl⟩
    | c :: cs => simp at hlen
  | succ fuel ih =>
    intro pre l ofs hlen
    match l with
    | [] => exact ⟨[], rfl⟩
    | c :: cs =>
      obtain ⟨⟨f, r⟩, hnt⟩ := nextToken_isSome mysql pre c cs
      have hspec := nextToken_spec hnt
      have hr : r.length ≤ fuel := by
        have : f.text.length + r.length = cs.length + 1 := by
          have := congrArg List.length hspec.1
          simpa using this
        have hpos : 0 < f.text.length := List.length_pos.mpr hspec.2
        simp only [List.length_cons] at hlen
        omega
      obtain ⟨fs, hrec⟩ := ih (f.text.reverse ++ pre) r (ofs + f.text.length) hr
      refine ⟨f :: fs, ?_⟩
      rw [Parser.parseAux, hnt]
      simp [hrec]

theorem parseAux_join (mysql : Bool) :
    ∀ fuel pre l ofs fs, Parser.parseAux mysql fuel pre l ofs = .ok fs →
      (fs.map Fragment.text).flatten = l := by
  intro fuel
  induction fuel with
  | zero =>
    intro pre l ofs fs h
    match l with
    | [] =>
      simp only [Parser.parseAux, Except.ok.injEq] at h
      subst h
      simp
    | c :: cs => simp [Parser.parseAux] at h
  | succ fuel ih =>
    intro pre l ofs fs h
    match l with
    | [] =>
      simp only [Parser.parseAux, Except.ok.injEq] at h
      subst h
      simp
    | c :: cs =>
      rw [Parser.parseAux] at h
      split at h
      · exact absurd h (by simp)
      case _ f r hnt =>
        split at h
        · exact absurd h (by simp)
        case _ fs' hrec =>
          simp only [Except.ok.injEq] at h
          subst h
          have h1 := ih (f.text.reverse ++ pre) r (ofs + f.text.length) fs' hrec
          have h2 := (nextToken_spec hnt).1
          simp [h1, h2]

/-!  ## Parameter-compiler lemmas  -/

namespace ParameterCompiler

theorem compileFrags_append (params : QueryParameters) (types : QueryParameterTypes)
    (style : ParameterBindingStyle) (l1 l2 : List Fragment) (ctx : CompileContext) :
    compileFrags params types style (l1 ++ l2) ctx =
      match compileFrags params types style l1 ctx with
      | .error e => .error e
      | .ok ctx' => compileFrags params types style l2 ctx' := by
  induction l1 generalizing ctx with
  | nil => simp [compileFrags]
  | cons f fs ih =>
    rw [List.cons_append, compileFrags, compileFrags]
    cases hacc : acceptFragment params types style ctx f with
    | error e => simp
    | ok ctx' => simp [ih]

theorem acceptFragment_positional_on_named (m : List (List Char × JSValue))
    (types : QueryParameterTypes) (style : ParameterBindingStyle)
    (ctx : CompileContext) (f : Fragment) (hk : f.kind = .positionalParameter) :
    acceptFragment (.named m) types style ctx f = .error .mixedParameterStyle := by
  unfold acceptFragment
  rw [hk]
  simp [readPositionalValue]

theorem acceptFragment_named_on_positional (l : List JSValue)
    (types : QueryParameterTypes) (style : ParameterBindingStyle)
    (ctx : CompileContext) (f : Fragment) (hk : f.kind = .namedParameter) :
    acceptFragment (.positional l) types style ctx f = .error .mixedParameterStyle := by
  unfold acceptFragment
  rw [hk]
  simp [readNamedValue]

theorem compileFrags_error_of_positional_frag (m : List (List Char × JSValue))
    (types : QueryParameterTypes) (style : ParameterBindingStyle) :
    ∀ (frags : List Fragment) (ctx : CompileContext),
      (∃ f ∈ frags, f.kind = .positionalParameter) →
      ∃ e, compileFrags (.named m) types style frags ctx = .error e := by
  intro frags
  induction frags with
  | nil =>
    intro ctx h
    simp at h
  | cons f fs ih =>
    intro ctx h
    rw [compileFrags]
    cases hacc : acceptFragment (.named m) types style ctx f with
    | error e => exact ⟨e, by simp⟩
    | ok ctx' =>
      obtain ⟨f1, hmem, hkind⟩ := h
      rcases List.mem_cons.mp hmem with rfl | hmem'
      · rw [acceptFragment_positional_on_named m types style ctx f1 hkind] at hacc
        cases hacc
      · simpa using ih ctx' ⟨f1, hmem', hkind⟩

theorem compileFrags_error_of_named_frag (l : List JSValue)
    (types : QueryParameterTypes) (style : ParameterBindingStyle) :
    ∀ (frags : List Fragment) (ctx : CompileContext),
      (∃ f ∈ frags, f.kind = .namedParameter) →
      ∃ e, compileFrags (.positional l) types style frags ctx = .error e := by
  intro frags
  induction frags with
  | nil =>
    intro ctx h
    simp at h
  | cons f fs ih =>
    intro ctx h
    rw [compileFrags]
    cases hacc : acceptFragment (.positional l) types style ctx f with
    | error e => exact ⟨e, by simp⟩
    | ok ctx' =>
      obtain ⟨f1, hmem, hkind⟩ := h
      rcases List.mem_cons.mp hmem with rfl | hmem'
      · rw [acceptFragment_named_on_positional l types style ctx f1 hkind] at hacc
        cases hacc
      · simpa using ih ctx' ⟨f1, hmem', hkind⟩

theorem appendScalarList_positional (t : BindTag) :
    ∀ (es : List JSValue) (ctx : CompileContext),
      appendScalarList t .positional es ctx =
        (List.replicate es.length ['?'],
         { ctx with
            boundValues := ctx.boundValues ++ es,
            boundTypes := ctx.boundTypes ++ List.replicate es.length t }) := by
  intro es
  induction es with
  | nil => intro ctx; simp [appendScalarList]
  | cons e es ih =>
    intro ctx
    rw [appendScalarList]
    simp only [appendScalarBoundValue]
    rw [ih]
    simp [List.replicate_succ]

theorem appendScalarList_named (t : BindTag) :
    ∀ (es : List JSValue) (ctx : CompileContext),
      appendScalarList t .named es ctx =
        (atPlaceholders ctx.bindCounter es.length,
         { ctx with
            bindCounter := ctx.bindCounter + es.length,
            namedBoundValues := namedEntries ctx.bindCounter es ctx.namedBoundValues,
            namedBoundTypes :=
              namedEntries ctx.bindCounter (List.replicate es.length t) ctx.namedBoundTypes }) := by
  intro es
  induction es with
  | nil => intro ctx; simp [appendScalarList, atPlaceholders, namedEntries]
  | cons e es ih =>
    intro ctx
    rw [appendScalarList]
    simp only [appendScalarBoundValue]
    rw [ih]
    simp only [List.length_cons, List.replicate_succ, atPlaceholders, namedEntries]
    have harith : ctx.bindCounter + 1 + es.length = ctx.bindCounter + (es.length + 1) := by omega
    rw [harith]

end ParameterCompiler

/-!  ## Helper lemmas for symbolic tokenizer runs  -/

theorem takeWhile_all_append {p : Char → Bool} (xs ys : List Char)
    (hx : ∀ c ∈ xs, p c = true) :
    (xs ++ ys).takeWhile p = xs ++ ys.takeWhile p := by
  induction xs with
  | nil => simp
  | cons x xs ih =>
    have hpx : p x = true := hx x (by simp)
    simp only [List.cons_append, List.takeWhile_cons, hpx, if_true]
    rw [ih (fun c hc => hx c (by simp [hc]))]

theorem dropWhile_all_append {p : Char → Bool} (xs ys : List Char)
    (hx : ∀ c ∈ xs, p c = true) :
    (xs ++ ys).dropWhile p = ys.dropWhile p := by
  induction xs with
  | nil => simp
  | cons x xs ih =>
    have hpx : p x = true := hx x (by simp)
    simp only [List.cons_append, List.dropWhile_cons, hpx, if_true]
    exact ih (fun c hc => hx c (by simp [hc]))

theorem ansiBody_closed (delim : Char) (xs rest : List Char)
    (hx : ∀ c ∈ xs, c ≠ delim) :
    ansiBody delim (xs ++ delim :: rest) = some (xs ++ [delim], rest) := by
  unfold ansiBody
  have hall : ∀ c ∈ xs, (fun c => decide (c ≠ delim)) c = true := by
    intro c hc
    simpa using hx c hc
  have hdrop : (xs ++ delim :: rest).dropWhile (fun c => decide (c ≠ delim)) = delim :: rest := by
    rw [dropWhile_all_append xs (delim :: rest) hall]
    simp [List.dropWhile_cons]
  have htake : (xs ++ delim :: rest).takeWhile (fun c => decide (c ≠ delim)) = xs := by
    rw [takeWhile_all_append xs (delim :: rest) hall]
    simp [List.takeWhile_cons]
  rw [hdrop, htake]

theorem nextToken_sq (mysql : Bool) (pre xs : List Char) :
    nextToken mysql pre (sqChar :: xs) = some (otherToken mysql pre sqChar xs) := by
  rw [nextToken]
  have h1 : (sqChar = ':') = False := by simp [sqChar]
  have h2 : (sqChar = '?') = False := by simp [sqChar]
  simp [h1, h2]

theorem otherToken_sq_ansi (pre a rest : List Char) (ha : ∀ c ∈ a, c ≠ sqChar) :
    otherToken false pre sqChar (a ++ sqChar :: rest) =
      (⟨.other, sqChar :: (a ++ [sqChar])⟩, rest) := by
  unfold otherToken
  rw [if_pos (by simp)]
  rw [show stringLitBody false sqChar (a ++ sqChar :: rest) =
        ansiBody sqChar (a ++ sqChar :: rest) from by simp [stringLitBody]]
  rw [ansiBody_closed sqChar a rest ha]

theorem parseAux_cons (mysql : Bool) (fuel : Nat) (pre : List Char) (c : Char)
    (cs : List Char) (ofs : Nat) :
    Parser.parseAux mysql (fuel + 1) pre (c :: cs) ofs =
      match nextToken mysql pre (c :: cs) with
      | none => .error ofs
      | some (f, r) =>
        match Parser.parseAux mysql fuel (f.text.reverse ++ pre) r (ofs + f.text.length) with
        | .error e => .error e
        | .ok fs => .ok (f :: fs) := by
  rw [Parser.parseAux]

theorem parseAux_nil (mysql : Bool) (fuel : Nat) (pre : List Char) (ofs : Nat) :
    Parser.parseAux mysql fuel pre [] ofs = .ok [] := by
  cases fuel <;> rw [Parser.parseAux]

theorem parseAux_ansi_doubled (a b : List Char)
    (ha : ∀ c ∈ a, c ≠ sqChar) (hb : ∀ c ∈ b, c ≠ sqChar) :
    ∀ fuel pre ofs, 2 ≤ fuel →
      Parser.parseAux false fuel pre
          (sqChar :: (a ++ sqChar :: sqChar :: (b ++ sqChar :: []))) ofs =
        .ok [⟨.other, sqChar :: (a ++ [sqChar])⟩, ⟨.other, sqChar :: (b ++ [sqChar])⟩] := by
  intro fuel pre ofs hfuel
  obtain ⟨f1, rfl⟩ : ∃ f1, fuel = f1 + 1 := ⟨fuel - 1, by omega⟩
  rw [parseAux_cons, nextToken_sq,
    otherToken_sq_ansi pre a (sqChar :: (b ++ sqChar :: [])) ha]
  obtain ⟨f2, rfl⟩ : ∃ f2, f1 = f2 + 1 := ⟨f1 - 1, by omega⟩
  simp only [parseAux_cons, nextToken_sq,
    otherToken_sq_ansi _ b [] hb, parseAux_nil]

/-!  ## Claim theorems  -/

/-- C2: for every input SQL string, the tokenizer emits fragments in
left-to-right scan order whose concatenation equals the input exactly: no
character is consumed without being echoed through a fragment. -/
theorem tokenizer_roundtrip (mySQLStringEscaping : Bool) (sql : List Char)
    (frags : List Fragment) (h : Parser.parse mySQLStringEscaping sql = .ok frags) :
    (frags.map Fragment.text).flatten = sql :=
  parseAux_join mySQLStringEscaping sql.length [] sql 0 frags h

/-- Witness for C2 at a concrete input. -/
theorem tokenizer_roundtrip_witness :
    (([⟨.other, "SELECT ".data⟩, ⟨.namedParameter, ":id".data⟩, ⟨.other, " = ".data⟩,
        ⟨.positionalParameter, "?".data⟩] : List Fragment).map Fragment.text).flatten =
      "SELECT :id = ?".data :=
  tokenizer_roundtrip true "SELECT :id = ?".data
    [⟨.other, "SELECT ".data⟩, ⟨.namedParameter, ":id".data⟩, ⟨.other, " = ".data⟩,
      ⟨.positionalParameter, "?".data⟩] (by rfl)

/-- C4 counterexample: the claimed failure mode does not exist.  No input
makes the tokenizer fail: the single-special-character and other-run
alternatives cover every character, so the scan always advances and the
lexical-error branch is unreachable. -/
theorem lexical_error_unreachable_counterexample :
    ¬ ∃ (mySQLStringEscaping : Bool) (sql : List Char) (e : Nat),
        Parser.parse mySQLStringEscaping sql = .error e := by
  rintro ⟨m, sql, e, h⟩
  obtain ⟨fs, hok⟩ := parseAux_ok m sql.length [] sql 0 le_rfl
  rw [Parser.parse, hok] at h
  cases h

/-- C4 amended: tokenization always succeeds — every input (including
unterminated literals and trailing escapes, which fall back to
single-character and run fragments) is fully scanned into fragments, and
the error branch carrying the offset is never taken. -/
theorem tokenizer_always_succeeds (mySQLStringEscaping : Bool) (sql : List Char) :
    ∃ frags, Parser.parse mySQLStringEscaping sql = .ok frags :=
  parseAux_ok mySQLStringEscaping sql.length [] sql 0 le_rfl

/-- C7: `"SELECT ARRAY[:id], [col:name]"` tokenizes with exactly one named
marker `:id` (inside the `ARRAY`-prefixed bracket, which is opened up by
the lookbehind) while `[col:name]` stays one opaque `Other` fragment. -/
theorem array_bracket_tokenization :
    Parser.parse true "SELECT ARRAY[:id], [col:name]".data =
      .ok [⟨.other, "SELECT ARRAY".data⟩, ⟨.other, "[".data⟩,
        ⟨.namedParameter, ":id".data⟩, ⟨.other, "], ".data⟩,
        ⟨.other, "[col:name]".data⟩] ∧
    ([⟨.other, "SELECT ARRAY".data⟩, ⟨.other, "[".data⟩,
        ⟨.namedParameter, ":id".data⟩, ⟨.other, "], ".data⟩,
        (⟨.other, "[col:name]".data⟩ : Fragment)].filter
      (fun f => f.kind == .namedParameter)).map Fragment.text = [":id".data] := by
  exact ⟨by rfl, by rfl⟩

/-- C8 counterexample: in the doubling (ANSI) dialect the literal
`'it''s'` is NOT scanned as a single `Other` fragment spanning the whole
literal; it yields two adjacent literal fragments `'it'` and `'s'`. -/
theorem doubled_quote_two_fragments_counterexample :
    Parser.parse false [sqChar, 'i', 't', sqChar, sqChar, 's', sqChar] =
      .ok [⟨.other, [sqChar, 'i', 't', sqChar]⟩, ⟨.other, [sqChar, 's', sqChar]⟩] ∧
    Parser.parse false [sqChar, 'i', 't', sqChar, sqChar, 's', sqChar] ≠
      .ok [⟨.other, [sqChar, 'i', 't', sqChar, sqChar, 's', sqChar]⟩] := by
  refine ⟨by rfl, ?_⟩
  intro h
  rw [show Parser.parse false [sqChar, 'i', 't', sqChar, sqChar, 's', sqChar] =
      .ok [⟨.other, [sqChar, 'i', 't', sqChar]⟩, ⟨.other, [sqChar, 's', sqChar]⟩] from rfl] at h
  simp at h

/-- C8 amended: in the doubling (ANSI) dialect, a quoted literal whose
interior contains a doubled quote is scanned as two adjacent opaque
`Other` fragments — the doubled quote closes the first literal fragment
and opens the second — whose concatenation spans the whole literal, and
no parameter marker is detected anywhere inside. -/
theorem doubled_quote_literal_fragments (a b : List Char)
    (ha : ∀ c ∈ a, c ≠ sqChar) (hb : ∀ c ∈ b, c ≠ sqChar) :
    Parser.parse false (sqChar :: (a ++ sqChar :: sqChar :: (b ++ sqChar :: []))) =
      .ok [⟨.other, sqChar :: (a ++ [sqChar])⟩, ⟨.other, sqChar :: (b ++ [sqChar])⟩] := by
  rw [Parser.parse]
  exact parseAux_ansi_doubled a b ha hb _ [] 0 (by simp; omega)

/-- Witness for C8's amended theorem at the literal `'it''s'`. -/
theorem doubled_quote_literal_fragments_witness :
    Parser.parse false (sqChar :: (['i', 't'] ++ sqChar :: sqChar :: (['s'] ++ sqChar :: []))) =
      .ok [⟨.other, sqChar :: (['i', 't'] ++ [sqChar])⟩,
        ⟨.other, sqChar :: (['s'] ++ [sqChar])⟩] :=
  doubled_quote_literal_fragments ['i', 't'] ['s'] (by decide) (by decide)

/-- Unfolding `compile` once the fragment stream of the SQL is known. -/
theorem compile_of_parse (sql : List Char) (params : QueryParameters)
    (types : QueryParameterTypes) (style : ParameterBindingStyle) (frags : List Fragment)
    (h : Parser.parse true sql = .ok frags) :
    ParameterCompiler.compile sql params types style =
      match ParameterCompiler.compileFrags params types style frags compileInitContext with
      | .error e => .error e
      | .ok ctx =>
        if ctx.usedNamedParameter && ctx.usedPositionalParameter then
          .error .mixedParameterStyle
        else
          match style with
          | .named => .ok (.named (ParameterCompiler.joinSep [] ctx.sqlParts)
              ctx.namedBoundValues ctx.namedBoundTypes)
          | .positional => .ok (.positional (ParameterCompiler.joinSep [] ctx.sqlParts)
              ctx.boundValues ctx.boundTypes) := by
  rw [ParameterCompiler.compile, h]

/-- An error raised while folding the visitor aborts the compilation with
that error. -/
theorem compile_error_of_frags (sql : List Char) (params : QueryParameters)
    (types : QueryParameterTypes) (style : ParameterBindingStyle) (frags : List Fragment)
    (e : CompileError) (hparse : Parser.parse true sql = .ok frags)
    (h : ParameterCompiler.compileFrags params types style frags compileInitContext = .error e) :
    ParameterCompiler.compile sql params types style = .error e := by
  rw [compile_of_parse sql params types style frags hparse, h]

/-- `compileFrags` over an append whose first half succeeds continues from
the reached context. -/
theorem compileFrags_append_ok (params : QueryParameters) (types : QueryParameterTypes)
    (style : ParameterBindingStyle) (l1 l2 : List Fragment) (ctx ctx' : CompileContext)
    (h : ParameterCompiler.compileFrags params types style l1 ctx = .ok ctx') :
    ParameterCompiler.compileFrags params types style (l1 ++ l2) ctx =
      ParameterCompiler.compileFrags params types style l2 ctx' := by
  rw [ParameterCompiler.compileFrags_append, h]

/-- Claim C3 counterexample: a compilation whose SQL mixes a named and a
positional marker can fail with a missing-named-parameter error instead of
the style-mismatch error, when the marker before the first conflicting one
does not resolve. -/
theorem mixed_markers_missing_value_counterexample :
    Parser.parse true ":id ?".data =
      .ok [⟨.namedParameter, ":id".data⟩, ⟨.other, " ".data⟩,
        ⟨.positionalParameter, "?".data⟩] ∧
    ParameterCompiler.compile ":id ?".data (.named []) (.named []) .positional =
      .error (.missingNamedParameter "id".data) ∧
    CompileError.missingNamedParameter "id".data ≠ CompileError.mixedParameterStyle := by
  exact ⟨by rfl, by rfl, by decide⟩

/-- Claim C3 amended: a compilation whose SQL contains both a named and a
positional marker never produces a CompiledQuery — it always fails; and
when every marker before the first marker conflicting with the parameter
container's style resolves successfully (the visitor reaches that marker),
the failure is the mixed-parameter-style error, raised at that marker. -/
theorem mixed_markers_compile_fails (sql : List Char) (params : QueryParameters)
    (types : QueryParameterTypes) (style : ParameterBindingStyle)
    (frags pre rest : List Fragment) (f : Fragment) (ctx : CompileContext) :
    (Parser.parse true sql = .ok frags →
      (∃ f1 ∈ frags, f1.kind = .namedParameter) →
      (∃ f2 ∈ frags, f2.kind = .positionalParameter) →
      ∃ e, ParameterCompiler.compile sql params types style = .error e)
  ∧ (∀ m, params = .named m → Parser.parse true sql = .ok frags →
      frags = pre ++ f :: rest → f.kind = .positionalParameter →
      ParameterCompiler.compileFrags params types style pre compileInitContext = .ok ctx →
      ParameterCompiler.compile sql params types style = .error .mixedParameterStyle)
  ∧ (∀ l, params = .positional l → Parser.parse true sql = .ok frags →
      frags = pre ++ f :: rest → f.kind = .namedParameter →
      ParameterCompiler.compileFrags params types style pre compileInitContext = .ok ctx →
      ParameterCompiler.compile sql params types style = .error .mixedParameterStyle) := by
  refine ⟨?_, ?_, ?_⟩
  · intro hparse hn hp
    cases params with
    | named m =>
      obtain ⟨e, he⟩ := ParameterCompiler.compileFrags_error_of_positional_frag m types style
        frags compileInitContext hp
      exact ⟨e, compile_error_of_frags sql _ types style frags e hparse he⟩
    | positional l =>
      obtain ⟨e, he⟩ := ParameterCompiler.compileFrags_error_of_named_frag l types style
        frags compileInitContext hn
      exact ⟨e, compile_error_of_frags sql _ types style frags e hparse he⟩
  · intro m hm hparse hsplit hkind hpre
    subst hm
    subst hsplit
    refine compile_error_of_frags sql _ types style _ _ hparse ?_
    rw [compileFrags_append_ok _ types style pre (f :: rest) compileInitContext ctx hpre,
      ParameterCompiler.compileFrags,
      ParameterCompiler.acceptFragment_positional_on_named m types style ctx f hkind]
  · intro l hl hparse hsplit hkind hpre
    subst hl
    subst hsplit
    refine compile_error_of_frags sql _ types style _ _ hparse ?_
    rw [compileFrags_append_ok _ types style pre (f :: rest) compileInitContext ctx hpre,
      ParameterCompiler.compileFrags,
      ParameterCompiler.acceptFragment_named_on_positional l types style ctx f hkind]

/-- Witness for C3: the both-kinds compilation fails; with all earlier
markers resolving, it fails with the style-mismatch error, both for a
named container meeting a positional marker and for a positional container
meeting a named marker. -/
theorem mixed_markers_compile_fails_witness :
    (∃ e, ParameterCompiler.compile ":id ?".data (.named [("id".data, .scalar 1)])
        (.named []) .positional = .error e) ∧
    ParameterCompiler.compile ":id ?".data (.named [("id".data, .scalar 1)])
        (.named []) .positional = .error .mixedParameterStyle ∧
    ParameterCompiler.compile ":id ?".data (.positional [.scalar 1])
        (.named []) .positional = .error .mixedParameterStyle := by
  refine ⟨?_, ?_, ?_⟩
  · exact (mixed_markers_compile_fails ":id ?".data (.named [("id".data, .scalar 1)])
      (.named []) .positional
      [⟨.namedParameter, ":id".data⟩, ⟨.other, " ".data⟩, ⟨.positionalParameter, "?".data⟩]
      [] [] ⟨.other, []⟩ compileInitContext).1 (by rfl)
      ⟨⟨.namedParameter, ":id".data⟩, by simp, rfl⟩
      ⟨⟨.positionalParameter, "?".data⟩, by simp, rfl⟩
  · exact (mixed_markers_compile_fails ":id ?".data (.named [("id".data, .scalar 1)])
      (.named []) .positional
      [⟨.namedParameter, ":id".data⟩, ⟨.other, " ".data⟩, ⟨.positionalParameter, "?".data⟩]
      [⟨.namedParameter, ":id".data⟩, ⟨.other, " ".data⟩] []
      ⟨.positionalParameter, "?".data⟩
      { sqlParts := [['?'], [' ']], boundValues := [.scalar 1], boundTypes := [.pString],
        namedBoundValues := [], namedBoundTypes := [], positionalIndex := 0,
        bindCounter := 0, usedNamedParameter := true,
        usedPositionalParameter := false }).2.1
      [("id".data, .scalar 1)] rfl (by rfl) rfl rfl (by rfl)
  · exact (mixed_markers_compile_fails ":id ?".data (.positional [.scalar 1])
      (.named []) .positional
      [⟨.namedParameter, ":id".data⟩, ⟨.other, " ".data⟩, ⟨.positionalParameter, "?".data⟩]
      [] [⟨.other, " ".data⟩, ⟨.positionalParameter, "?".data⟩]
      ⟨.namedParameter, ":id".data⟩ compileInitContext).2.2
      [.scalar 1] rfl (by rfl) rfl rfl (by rfl)

/-- Claim C5: a sequence-valued parameter under an array binding tag
compiles to `NULL` with nothing recorded when empty, and to N placeholders
joined by `", "` binding the N elements in order under the tag's element
scalar type when non-empty (shown for both target binding styles); a
sequence under a non-array resolved tag is a hard error. -/
theorem array_parameter_expansion (ctx : CompileContext) (style : ParameterBindingStyle)
    (tag : BindTag) (type? : Option BindTag) (elems : List JSValue) :
    (isArrayParameterType (type?.getD .pString) = false →
      ParameterCompiler.appendBoundValue (.arr elems) type? style ctx =
        .error .invalidParameter)
  ∧ (isArrayParameterType tag = true →
      ParameterCompiler.appendBoundValue (.arr []) (some tag) style ctx =
        .ok { ctx with sqlParts := ctx.sqlParts ++ [ParameterCompiler.nullText] })
  ∧ (isArrayParameterType tag = true → elems ≠ [] →
      ParameterCompiler.appendBoundValue (.arr elems) (some tag) .positional ctx =
        .ok { ctx with
          sqlParts := ctx.sqlParts ++
            [ParameterCompiler.joinSep ParameterCompiler.commaSpace
              (List.replicate elems.length ['?'])],
          boundValues := ctx.boundValues ++ elems,
          boundTypes := ctx.boundTypes ++
            List.replicate elems.length (toElementParameterType tag) })
  ∧ (isArrayParameterType tag = true → elems ≠ [] →
      ParameterCompiler.appendBoundValue (.arr elems) (some tag) .named ctx =
        .ok { ctx with
          bindCounter := ctx.bindCounter + elems.length,
          sqlParts := ctx.sqlParts ++
            [ParameterCompiler.joinSep ParameterCompiler.commaSpace
              (ParameterCompiler.atPlaceholders ctx.bindCounter elems.length)],
          namedBoundValues :=
            ParameterCompiler.namedEntries ctx.bindCounter elems ctx.namedBoundValues,
          namedBoundTypes := ParameterCompiler.namedEntries ctx.bindCounter
            (List.replicate elems.length (toElementParameterType tag))
            ctx.namedBoundTypes }) := by
  refine ⟨?_, ?_, ?_, ?_⟩
  · intro h
    simp [ParameterCompiler.appendBoundValue, h]
  · intro h
    simp [ParameterCompiler.appendBoundValue, h]
  · intro h hne
    match elems with
    | e :: es =>
      simp [ParameterCompiler.appendBoundValue, h,
        ParameterCompiler.appendScalarList_positional]
  · intro h hne
    match elems with
    | e :: es =>
      simp [ParameterCompiler.appendBoundValue, h,
        ParameterCompiler.appendScalarList_named]

/-- Witness for C5 at concrete inputs: the array-under-scalar-tag error,
the empty-sequence `NULL`, and two-element expansions in both styles. -/
theorem array_parameter_expansion_witness :
    ParameterCompiler.appendBoundValue (.arr [.scalar 5]) (some .pString) .positional
        compileInitContext = .error .invalidParameter ∧
    ParameterCompiler.appendBoundValue (.arr []) (some .aInteger) .positional
        compileInitContext =
      .ok { compileInitContext with
        sqlParts := compileInitContext.sqlParts ++ [ParameterCompiler.nullText] } ∧
    ParameterCompiler.appendBoundValue (.arr [.scalar 1, .scalar 2]) (some .aInteger)
        .positional compileInitContext =
      .ok { compileInitContext with
        sqlParts := compileInitContext.sqlParts ++
          [ParameterCompiler.joinSep ParameterCompiler.commaSpace
            (List.replicate [JSValue.scalar 1, JSValue.scalar 2].length ['?'])],
        boundValues := compileInitContext.boundValues ++ [.scalar 1, .scalar 2],
        boundTypes := compileInitContext.boundTypes ++
          List.replicate [JSValue.scalar 1, JSValue.scalar 2].length
            (toElementParameterType .aInteger) } ∧
    ParameterCompiler.appendBoundValue (.arr [.scalar 1, .scalar 2]) (some .aInteger)
        .named compileInitContext =
      .ok { compileInitContext with
        bindCounter := compileInitContext.bindCounter +
          [JSValue.scalar 1, JSValue.scalar 2].length,
        sqlParts := compileInitContext.sqlParts ++
          [ParameterCompiler.joinSep ParameterCompiler.commaSpace
            (ParameterCompiler.atPlaceholders compileInitContext.bindCounter
              [JSValue.scalar 1, JSValue.scalar 2].length)],
        namedBoundValues := ParameterCompiler.namedEntries compileInitContext.bindCounter
          [.scalar 1, .scalar 2] compileInitContext.namedBoundValues,
        namedBoundTypes := ParameterCompiler.namedEntries compileInitContext.bindCounter
          (List.replicate [JSValue.scalar 1, JSValue.scalar 2].length
            (toElementParameterType .aInteger)) compileInitContext.namedBoundTypes } := by
  refine ⟨?_, ?_, ?_, ?_⟩
  · exact (array_parameter_expansion compileInitContext .positional .aInteger
      (some .pString) [.scalar 5]).1 (by decide)
  · exact (array_parameter_expansion compileInitContext .positional .aInteger
      (some .aInteger) []).2.1 (by decide)
  · exact (array_parameter_expansion compileInitContext .positional .aInteger
      (some .aInteger) [.scalar 1, .scalar 2]).2.2.1 (by decide) (by simp)
  · exact (array_parameter_expansion compileInitContext .named .aInteger
      (some .aInteger) [.scalar 1, .scalar 2]).2.2.2 (by decide) (by simp)

/-- Claim C6: under the Named target binding style every bound scalar is
emitted as `@p<counter>` where the counter is the context's bind counter
plus one (so it increases by exactly 1 per emitted placeholder and is
shared across the whole compilation through the threaded context), the
value and type are stored in the output maps under the key `p<counter>`,
and the counter starts at 0 in the fresh compilation context (so the
first placeholder is `@p1`). -/
theorem named_placeholder_counter (value : JSValue) (type : BindTag)
    (ctx : CompileContext) :
    ParameterCompiler.appendScalarBoundValue value type .named ctx =
      ('@' :: ParameterCompiler.pKey (ctx.bindCounter + 1),
       { ctx with
          bindCounter := ctx.bindCounter + 1,
          namedBoundValues :=
            (ParameterCompiler.pKey (ctx.bindCounter + 1), value) :: ctx.namedBoundValues,
          namedBoundTypes :=
            (ParameterCompiler.pKey (ctx.bindCounter + 1), type) :: ctx.namedBoundTypes }) ∧
    recordLookup
        ((ParameterCompiler.appendScalarBoundValue value type .named ctx).2.namedBoundValues)
        (ParameterCompiler.pKey (ctx.bindCounter + 1)) = some value ∧
    recordLookup
        ((ParameterCompiler.appendScalarBoundValue value type .named ctx).2.namedBoundTypes)
        (ParameterCompiler.pKey (ctx.bindCounter + 1)) = some type ∧
    compileInitContext.bindCounter = 0 := by
  refine ⟨rfl, ?_, ?_, rfl⟩
  · simp [ParameterCompiler.appendScalarBoundValue, recordLookup]
  · simp [ParameterCompiler.appendScalarBoundValue, recordLookup]

/-- Claim C1 counterexample: a failed physical commit still mutates the
transaction state — with the driver's commit call failing at nesting
level 1, `commit` raises the driver failure AND the nesting level is
decremented to 0 by the `finally` block, so the state is not left as it
was. -/
theorem commit_failure_counterexample :
    Connection.commit
        { beginOk := true, commitOk := false, rollBackOk := true,
          hasCreateSavepoint := true, createSavepointOk := true,
          hasReleaseSavepoint := true, releaseSavepointOk := true,
          hasRollbackSavepoint := true, rollbackSavepointOk := true }
        { transactionNestingLevel := 1, rollbackOnly := false, autoCommit := true } =
      ({ transactionNestingLevel := 0, rollbackOnly := false, autoCommit := true },
       some .driverFailure) ∧
    ({ transactionNestingLevel := 1, rollbackOnly := false, autoCommit := true } :
        TransactionState) ≠
      { transactionNestingLevel := 0, rollbackOnly := false, autoCommit := true } := by
  exact ⟨by rfl, by decide⟩

/-- Claim C1 amended: `beginTransaction` (at any level) and `rollBack`
above level 1 leave the nesting level and rollback-only flag unchanged
when the physical call fails or savepoints are unsupported; but `commit`
applies its post-commit state update (decrement, and auto-commit-restart
bookkeeping) through a `finally` block whether or not the physical call
succeeded, and `rollBack` at level 1 resets the level to 0 before the
physical call and clears rollback-only in a `finally`, so those two
operations mutate the state even on physical failure. -/
theorem failed_transition_state_effects (d : DriverSpec) (s : TransactionState) :
    (s.transactionNestingLevel = 0 → d.beginOk = false →
      Connection.beginTransaction d s = (s, some .driverFailure))
  ∧ (0 < s.transactionNestingLevel → d.hasCreateSavepoint = false →
      Connection.beginTransaction d s = (s, some .nestedTransactionsNotSupported))
  ∧ (0 < s.transactionNestingLevel → d.hasCreateSavepoint = true →
      d.createSavepointOk = false →
      Connection.beginTransaction d s = (s, some .driverFailure))
  ∧ (1 < s.transactionNestingLevel → d.hasRollbackSavepoint = false →
      Connection.rollBack d s = (s, some .nestedTransactionsNotSupported))
  ∧ (1 < s.transactionNestingLevel → d.hasRollbackSavepoint = true →
      d.rollbackSavepointOk = false →
      Connection.rollBack d s = (s, some .driverFailure))
  ∧ (0 < s.transactionNestingLevel → s.rollbackOnly = false →
      (Connection.commit d s).1 = (Connection.updateTransactionStateAfterCommit d s).1)
  ∧ (s.transactionNestingLevel = 1 →
      (Connection.rollBack d s).1 =
        (if s.autoCommit then
          { s with transactionNestingLevel := 0, rollbackOnly := false }
         else (Connection.beginTransaction d
            { s with transactionNestingLevel := 0, rollbackOnly := false }).1)) := by
  refine ⟨?_, ?_, ?_, ?_, ?_, ?_, ?_⟩
  · intro h0 hb
    simp [Connection.beginTransaction, h0, hb]
  · intro hpos hcs
    have hne : ¬ s.transactionNestingLevel = 0 := by omega
    simp [Connection.beginTransaction, hne, hcs]
  · intro hpos hcs hok
    have hne : ¬ s.transactionNestingLevel = 0 := by omega
    simp [Connection.beginTransaction, hne, hcs, hok]
  · intro hpos hrs
    have hne0 : ¬ s.transactionNestingLevel = 0 := by omega
    have hne1 : ¬ s.transactionNestingLevel = 1 := by omega
    simp [Connection.rollBack, hne0, hne1, hrs]
  · intro hpos hrs hok
    have hne0 : ¬ s.transactionNestingLevel = 0 := by omega
    have hne1 : ¬ s.transactionNestingLevel = 1 := by omega
    simp [Connection.rollBack, hne0, hne1, hrs, hok]
  · intro hpos hro
    have hne : ¬ s.transactionNestingLevel = 0 := by omega
    simp [Connection.commit, hne, hro]
  · intro h1
    have hne0 : ¬ s.transactionNestingLevel = 0 := by omega
    by_cases hac : s.autoCommit
    · simp [Connection.rollBack, hne0, h1, hac]
    · simp [Connection.rollBack, hne0, h1, hac]

/-- Witness for C1's amended theorem at concrete drivers and states. -/
theorem failed_transition_state_effects_witness :
    Connection.beginTransaction
        { beginOk := false, commitOk := true, rollBackOk := true,
          hasCreateSavepoint := true, createSavepointOk := true,
          hasReleaseSavepoint := true, releaseSavepointOk := true,
          hasRollbackSavepoint := true, rollbackSavepointOk := true }
        { transactionNestingLevel := 0, rollbackOnly := false, autoCommit := true } =
      ({ transactionNestingLevel := 0, rollbackOnly := false, autoCommit := true },
       some .driverFailure) ∧
    Connection.rollBack
        { beginOk := true, commitOk := true, rollBackOk := true,
          hasCreateSavepoint := true, createSavepointOk := true,
          hasReleaseSavepoint := true, releaseSavepointOk := true,
          hasRollbackSavepoint := true, rollbackSavepointOk := false }
        { transactionNestingLevel := 2, rollbackOnly := false, autoCommit := true } =
      ({ transactionNestingLevel := 2, rollbackOnly := false, autoCommit := true },
       some .driverFailure) ∧
    (Connection.commit
        { beginOk := true, commitOk := false, rollBackOk := true,
          hasCreateSavepoint := true, createSavepointOk := true,
          hasReleaseSavepoint := true, releaseSavepointOk := true,
          hasRollbackSavepoint := true, rollbackSavepointOk := true }
        { transactionNestingLevel := 1, rollbackOnly := false, autoCommit := true }).1 =
      (Connection.updateTransactionStateAfterCommit
        { beginOk := true, commitOk := false, rollBackOk := true,
          hasCreateSavepoint := true, createSavepointOk := true,
          hasReleaseSavepoint := true, releaseSavepointOk := true,
          hasRollbackSavepoint := true, rollbackSavepointOk := true }
        { transactionNestingLevel := 1, rollbackOnly := false, autoCommit := true }).1 ∧
    (Connection.rollBack
        { beginOk := true, commitOk := true, rollBackOk := false,
          hasCreateSavepoint := true, createSavepointOk := true,
          hasReleaseSavepoint := true, releaseSavepointOk := true,
          hasRollbackSavepoint := true, rollbackSavepointOk := true }
        { transactionNestingLevel := 1, rollbackOnly := true, autoCommit := true }).1 =
      (if ({ transactionNestingLevel := 1, rollbackOnly := true, autoCommit := true } :
            TransactionState).autoCommit then
        { transactionNestingLevel := 0, rollbackOnly := false, autoCommit := true }
       else (Connection.beginTransaction
          { beginOk := true, commitOk := true, rollBackOk := false,
            hasCreateSavepoint := true, createSavepointOk := true,
            hasReleaseSavepoint := true, releaseSavepointOk := true,
            hasRollbackSavepoint := true, rollbackSavepointOk := true }
          { transactionNestingLevel := 0, rollbackOnly := false, autoCommit := true }).1) := by
  refine ⟨?_, ?_, ?_, ?_⟩
  · exact (failed_transition_state_effects _ _).1 rfl rfl
  · exact (failed_transition_state_effects _ _).2.2.2.2.1 (by decide) rfl rfl
  · exact (failed_transition_state_effects _ _).2.2.2.2.2.1 (by decide) rfl
  · exact (failed_transition_state_effects _ _).2.2.2.2.2.2 rfl

/-- Claim C9: `commit()` at nesting level 0 raises
`NoActiveTransactionException`, and `commit()` in an active transaction
flagged rollback-only raises `RollbackOnlyException` — in both cases
returning the state exactly unchanged. -/
theorem commit_guard_errors (d : DriverSpec) (s : TransactionState) :
    (s.transactionNestingLevel = 0 →
      Connection.commit d s = (s, some .noActiveTransaction))
  ∧ (0 < s.transactionNestingLevel → s.rollbackOnly = true →
      Connection.commit d s = (s, some .rollbackOnly)) := by
  constructor
  · intro h0
    simp [Connection.commit, h0]
  · intro hpos hro
    have hne : ¬ s.transactionNestingLevel = 0 := by omega
    simp [Connection.commit, hne, hro]

/-- Witness for C9 at a concrete driver and states. -/
theorem commit_guard_errors_witness :
    Connection.commit
        { beginOk := true, commitOk := true, rollBackOk := true,
          hasCreateSavepoint := true, createSavepointOk := true,
          hasReleaseSavepoint := true, releaseSavepointOk := true,
          hasRollbackSavepoint := true, rollbackSavepointOk := true }
        { transactionNestingLevel := 0, rollbackOnly := false, autoCommit := true } =
      ({ transactionNestingLevel := 0, rollbackOnly := false, autoCommit := true },
       some .noActiveTransaction) ∧
    Connection.commit
        { beginOk := true, commitOk := true, rollBackOk := true,
          hasCreateSavepoint := true, createSavepointOk := true,
          hasReleaseSavepoint := true, releaseSavepointOk := true,
          hasRollbackSavepoint := true, rollbackSavepointOk := true }
        { transactionNestingLevel := 3, rollbackOnly := true, autoCommit := true } =
      ({ transactionNestingLevel := 3, rollbackOnly := true, autoCommit := true },
       some .rollbackOnly) := by
  constructor
  · exact (commit_guard_errors _ _).1 rfl
  · exact (commit_guard_errors _ _).2 (by decide) rfl

/-- Claim C10: `isRollbackOnly()` throws `NoActiveTransactionException`
at nesting level 0 and returns the flag's value only when the level is at
least 1. -/
theorem isRollbackOnly_guard (s : TransactionState) :
    (s.transactionNestingLevel = 0 →
      Connection.isRollbackOnly s = .error .noActiveTransaction)
  ∧ (0 < s.transactionNestingLevel →
      Connection.isRollbackOnly s = .ok s.rollbackOnly) := by
  constructor
  · intro h0
    simp [Connection.isRollbackOnly, h0]
  · intro hpos
    have hne : ¬ s.transactionNestingLevel = 0 := by omega
    simp [Connection.isRollbackOnly, hne]

/-- Witness for C10 at concrete states. -/
theorem isRollbackOnly_guard_witness :
    Connection.isRollbackOnly
        { transactionNestingLevel := 0, rollbackOnly := false, autoCommit := true } =
      .error .noActiveTransaction ∧
    Connection.isRollbackOnly
        { transactionNestingLevel := 2, rollbackOnly := true, autoCommit := true } =
      .ok ({ transactionNestingLevel := 2, rollbackOnly := true, autoCommit := true } :
        TransactionState).rollbackOnly := by
  constructor
  · exact (isRollbackOnly_guard _).1 rfl
  · exact (isRollbackOnly_guard _).2 (by decide)

end Datazen
